import Mathlib

/-!
Verification of the JiraQuery defect-metrics core: a shallow embedding of
the status-mapping configuration (`cfg_mappings.py`), the change-log
timeline reconstruction (`jira_client.py`), the reduced state summary
(`bug_model.py`) and the bounce/SLA analysis (`bouncemetrics.py`),
together with theorems settling the specification's claims.
-/

namespace DefectMetrics

/-- Python `datetime.datetime`: seven calendar components.  Comparison of two
datetimes is lexicographic on the components, see `dlt`. -/
structure Datetime where
  year : Nat
  month : Nat
  day : Nat
  hour : Nat
  minute : Nat
  second : Nat
  microsecond : Nat
deriving DecidableEq

/-- Python `a < b` on `datetime` values: lexicographic on the seven components. -/
def dlt (a b : Datetime) : Bool :=
  decide (a.year < b.year) ||
    (a.year == b.year && (decide (a.month < b.month) ||
      (a.month == b.month && (decide (a.day < b.day) ||
        (a.day == b.day && (decide (a.hour < b.hour) ||
          (a.hour == b.hour && (decide (a.minute < b.minute) ||
            (a.minute == b.minute && (decide (a.second < b.second) ||
              (a.second == b.second &&
                decide (a.microsecond < b.microsecond))))))))))))

/-- Number of days in a month, as validated by the `datetime` constructor
(leap years included). -/
def daysInMonth (y m : Nat) : Nat :=
  if m = 2 then
    (if (y % 4 = 0 ∧ y % 100 ≠ 0) ∨ y % 400 = 0 then 29 else 28)
  else if m = 1 ∨ m = 3 ∨ m = 5 ∨ m = 7 ∨ m = 8 ∨ m = 10 ∨ m = 12 then 31
  else 30

/-- Range validation performed by the Python `datetime` constructor; a value
out of range raises `ValueError`, modelled as `Except.error`. -/
def mkDatetimeChecked (y m d h mi s us : Nat) : Except String Datetime :=
  if 1 ≤ y ∧ y ≤ 9999 ∧ 1 ≤ m ∧ m ≤ 12 ∧ 1 ≤ d ∧ d ≤ daysInMonth y m ∧
      h < 24 ∧ mi < 60 ∧ s < 60 ∧ us < 1000000 then
    .ok ⟨y, m, d, h, mi, s, us⟩
  else .error "ValueError: argument out of range"

/-- Construction `datetime.datetime(*args)`: between three and seven positional
integer arguments, missing time components default to zero; any other arity
raises `TypeError`. -/
def mkDatetime (comps : List Nat) : Except String Datetime :=
  match comps with
  | [y, m, d] => mkDatetimeChecked y m d 0 0 0 0
  | [y, m, d, h] => mkDatetimeChecked y m d h 0 0 0
  | [y, m, d, h, mi] => mkDatetimeChecked y m d h mi 0 0
  | [y, m, d, h, mi, s] => mkDatetimeChecked y m d h mi s 0
  | [y, m, d, h, mi, s, us] => mkDatetimeChecked y m d h mi s us
  | _ => .error "TypeError: wrong number of arguments"

/-- Python `str.split('/')` over the character data (splitting on every
occurrence of the separator, keeping empty segments). -/
def splitCharsOnSlash : List Char → List Char → List (List Char)
  | [], acc => [acc.reverse]
  | c :: rest, acc =>
    if c = '/' then acc.reverse :: splitCharsOnSlash rest []
    else splitCharsOnSlash rest (c :: acc)

/-- Splitting `date_string.split(BugKeys.DATE_DELIMITER)` with delimiter slash. -/
def splitOnSlash (s : String) : List String :=
  (splitCharsOnSlash s.data []).map (fun cs => String.mk cs)

/-- Decimal digit value of a character, if it is a digit. -/
def digitVal (c : Char) : Option Nat :=
  if '0' ≤ c ∧ c ≤ '9' then some (c.toNat - '0'.toNat) else none

/-- Accumulating decimal parse of a digit string. -/
def parseNatAux : List Char → Nat → Option Nat
  | [], acc => some acc
  | c :: rest, acc =>
    match digitVal c with
    | none => none
    | some d => parseNatAux rest (acc * 10 + d)

/-- Python `int(x)` on a string of decimal digits; a non-digit or empty string
raises `ValueError`, modelled as `none`. -/
def strToNat (s : String) : Option Nat :=
  match s.data with
  | [] => none
  | cs => parseNatAux cs 0

/-- Comprehension `[int(x) for x in components]`: evaluates left to right
and aborts at the first invalid literal. -/
def parseComponents : List String → Option (List Nat)
  | [] => some []
  | s :: rest =>
    match strToNat s, parseComponents rest with
    | some n, some ns => some (n :: ns)
    | _, _ => none

/-- Source `bouncemetrics.py` line 76:
`datetime(*[int(x) for x in self.dates[0].split(DATE_DELIMITER)])`.
An empty date list raises `IndexError`; an invalid literal raises
`ValueError`; both surface as exceptions, modelled as `Except.error`. -/
def parseIntervalStart (dates : List String) : Except String Datetime :=
  match dates with
  | [] => .error "IndexError: list index out of range"
  | d :: _ =>
    match parseComponents (splitOnSlash d) with
    | none => .error "ValueError: invalid literal for int"
    | some comps => mkDatetime comps

/-- Python `str.lower()` (ASCII case folding, which is all the source's
state labels use). -/
def toLowerStr (s : String) : String :=
  String.mk (s.data.map Char.toLower)

/-- A Python `dict[str, str]` modelled extensionally as a lookup function. -/
abbrev Dict : Type := String → Option String

/-- An empty dict literal. -/
def dictEmpty : Dict := fun _ => none

/-- Assignment `d[k] = v`. -/
def dictInsert (d : Dict) (k v : String) : Dict :=
  fun x => if x = k then some v else d x

/-- Method `d.update(d2)`: every binding of `d2` overrides the one in `d`. -/
def dictUpdate (d d2 : Dict) : Dict :=
  fun x =>
    match d2 x with
    | some v => some v
    | none => d x

/-- Constructor `dict(pairs)` from a list of key-value pairs: a later pair
with the same key overrides an earlier one. -/
def dictOfPairs (ps : List (String × String)) : Dict :=
  ps.foldl (fun d p => dictInsert d p.1 p.2) dictEmpty

/-- One entry of the per-pillar `states` mapping of the YAML configuration:
a canonical state name paired with its list of aliases, in file order. -/
abbrev StatesCfg : Type := List (String × List String)

/-- Comprehension `[(equiv, state) for equiv in equiv_list]` (equally
`[(a_s, state) for a_s in alt_states]`): the pairs contributed by one
canonical state of the `states` mapping. -/
def aliasPairs (p : String × List String) : List (String × String) :=
  p.2.map (fun equiv => (equiv, p.1))

/-- Per-pillar table built by `YamlFile.read_config_file` (lines 103-105):
start from an empty dict, and for each canonical `state` of the `states`
mapping update with `dict([(equiv, state) for equiv in equiv_list])`. -/
def buildPillarMappings (states : StatesCfg) : Dict :=
  states.foldl (fun d p => dictUpdate d (dictOfPairs (aliasPairs p))) dictEmpty

/-- Method `YamlFile.get_reverse_status_mappings` (lines 144-147): one dict
built from the flattened comprehension over the same `states` mapping. -/
def getReverseStatusMappings (states : StatesCfg) : Dict :=
  dictOfPairs ((states.map aliasPairs).flatten)

/-- The parsed YAML value for one pillar: the optional `order` list
(`target.get(self.reserved_section, None)`) and the `states` mapping. -/
structure PillarInfo where
  order : Option (List String)
  states : StatesCfg
deriving DecidableEq

/-- Method `YamlFile.read_config_file`: builds the alias table of every
pillar in the file. -/
def readConfigFile (cfg : List (String × PillarInfo)) : List (String × Dict) :=
  cfg.map (fun p => (p.1, buildPillarMappings p.2.states))

/-- The state of a `ConfigFileType` object after `__init__` ran on an
existing file: the `mappings` table and the pillar's `order`. -/
structure ConfigModel where
  mappings : List (String × Dict)
  order : Option (List String)

/-- Construction `ConfigFileType.__init__` (file present): runs
`read_config_file` and then `get_order`; the only failure is the `KeyError`
raised by `get_order` when the requested pillar is absent from the file.
No validation of `order` against `states` is performed anywhere. -/
def constructConfigFileType (cfg : List (String × PillarInfo)) (pillar : String) :
    Except String ConfigModel :=
  match List.lookup pillar cfg with
  | none => .error "KeyError: pillar not in configuration"
  | some info => .ok ⟨readConfigFile cfg, info.order⟩

/-- One entry of `changelog.histories[*].items[*]`: the changed field name
and the `toString` value it changed to. -/
structure ChangeItem where
  field : String
  chgTo : String
deriving DecidableEq

/-- One entry of `changelog.histories`: its `created` timestamp and its
`items` list. -/
structure ChangeEntry where
  created : Datetime
  items : List ChangeItem
deriving DecidableEq

/-- The `State` named tuple of `jira_client.py`:
`State = namedtuple('State', 'actual, standard, timestamp')`. -/
structure State where
  actual : String
  standard : String
  timestamp : Datetime
deriving DecidableEq

/-- The scan loop of `JiraClient._parse_change_log` (lines 322-356): for every
status-field item of every history entry, lowercase the new label; skip it
when the label is not in the pillar's alias table `mp`, otherwise append a
`State` with the raw label, its normalized value and the entry's timestamp.
(The undefined-pillar early return on lines 336-342 is unreachable once
construction succeeded, since `read_config_file` creates a `mappings` entry
for every pillar of the file.) -/
def scanChangeLog (mp : Dict) (chgs : List ChangeEntry) : List State :=
  (chgs.map (fun chg =>
    chg.items.filterMap (fun item =>
      if toLowerStr item.field = "status" then
        match mp (toLowerStr item.chgTo) with
        | none => none
        | some stdChgTo => some ⟨toLowerStr item.chgTo, stdChgTo, chg.created⟩
      else none))).flatten

/-- Method `JiraClient._parse_change_log` (lines 309-360): the state-change
list is seeded with a synthesized creation event whose `actual` and
`standard` fields are both `order[0]` and whose timestamp is the creation
time; when the change log is unavailable (the `KeyError`/`TypeError` branch,
lines 314-320) only the seed is returned, otherwise the scanned events
follow the seed. -/
def parseChangeLog (order0 : String) (mp : Dict) (createTime : Datetime)
    (chgLog : Option (List ChangeEntry)) : List State :=
  let seed : State := ⟨order0, order0, createTime⟩
  match chgLog with
  | none => [seed]
  | some chgs => seed :: scanChangeLog mp chgs

/-- Method `JiraClient._normalize_states` (lines 362-371): rebuilds the
reverse table with `get_reverse_status_mappings` and looks up the `actual`
label of every state event, `None` when absent. -/
def normalizeStates (states : StatesCfg) (stateList : List State) :
    List (Option String) :=
  stateList.map (fun st => getReverseStatusMappings states st.actual)

/-- The loop body of `Bug.states_unique_summary` (`bug_model.py` lines
189-197): `previous` starts as Python `None` and is reassigned to the current
element on every iteration; an element is kept only when it differs from
`previous`.  Elements are themselves optional strings (an unmapped state is
`None`), and the initial `previous = None` is the very same `None`. -/
def reduceUnique : Option String → List (Option String) → List (Option String)
  | _, [] => []
  | previous, state :: rest =>
    if state ≠ previous then state :: reduceUnique state rest
    else reduceUnique state rest

/-- Property `Bug.states_unique_summary`: the `_states_summary` list with
consecutive equal entries collapsed (see `reduceUnique`). -/
def statesUniqueSummary (statesSummary : List (Option String)) :
    List (Option String) :=
  reduceUnique none statesSummary

/-- The slice of a `Bug` object used by `BounceMetrics`: its id, the
`_states_summary` list (third component of `_parse_change_log`) and the
`_states` event list (first component of `_parse_change_log`). -/
structure Bug where
  defectId : String
  statesSummary : List (Option String)
  states : List State
deriving DecidableEq

/-- Computed property `bug.states_unique_summary`. -/
def Bug.statesUnique (b : Bug) : List (Option String) :=
  statesUniqueSummary b.statesSummary

/-- Constant `BounceMetricConstants.SLA_LIMIT`. -/
def SLA_LIMIT : Nat := 2

/-- The pair check of `BounceMetrics.defect_bounce_count` (lines 121-123):
neither side is `None`, the earlier lowercases to `test` and the later to
`open`. -/
def pairIsBounce : Option String → Option String → Bool
  | some currentState, some nextState =>
    toLowerStr currentState == "test" && toLowerStr nextState == "open"
  | _, _ => false

/-- Indexed access of the scan loop: `transition_list[index]` and
`transition_list[index + 1]` fed to the pair check. -/
def pairAt (l : List (Option String)) (i : Nat) : Bool :=
  match l.get? i, l.get? (i + 1) with
  | some currentState, some nextState => pairIsBounce currentState nextState
  | _, _ => false

/-- Static method `BounceMetrics.defect_bounce_count` (lines 102-125) on a
transition list: `num_transistions = len - 1`; only when
`num_transistions > 2` does the loop `for index in range(num_transistions)`
count the adjacent test-to-open pairs. -/
def bounceCountList (l : List (Option String)) : Nat :=
  if l.length - 1 > 2 then (List.range (l.length - 1)).countP (fun i => pairAt l i)
  else 0

/-- Call `BounceMetrics.defect_bounce_count(bug_obj)`. -/
def defectBounceCount (b : Bug) : Nat :=
  bounceCountList b.statesUnique

/-- Python index `l[-1]` made total: the last element when the list is
non-empty, `none` on the empty list (where Python raises `IndexError`). -/
def lastOf {α : Type} : List α → Option α
  | [] => none
  | [a] => some a
  | _ :: b :: rest => lastOf (b :: rest)

/-- The closed-state filter of `find_bounces` (lines 70-72): the defect is
kept when `closed` occurs in `states_unique_summary` and the last element is
`closed` (the `continue` is taken when either fails). -/
def isClosedEligible (b : Bug) : Bool :=
  b.statesUnique.contains (some "closed") &&
    (lastOf b.statesUnique == some (some "closed"))

/-- Per-project accumulator of `find_bounces`:
`summary[project] = {BOUNCED: 0, TOTAL: 0, VIOLATIONS: []}`. -/
structure ProjSummary where
  bounced : Nat
  total : Nat
  violations : List Bug
deriving DecidableEq

/-- The freshly initialized per-project summary. -/
def ProjSummary.empty : ProjSummary := ⟨0, 0, []⟩

/-- One iteration of the defect loop of `find_bounces` (lines 66-98), up to
the accumulator updates: `none` when the defect is skipped by either filter;
otherwise the pair of flags (counted as bounced, appended to violations).
The interval start date is parsed inside the loop (line 76), after the
closed-state filter, so its errors surface only for defects that pass that
filter; reading `defect.states[-1]` of an empty event list raises
`IndexError`. -/
def processDefect (dates : List String) (b : Bug) :
    Except String (Option (Bool × Bool)) :=
  if isClosedEligible b then
    match parseIntervalStart dates with
    | .error e => .error e
    | .ok intervalStartDate =>
      match lastOf b.states with
      | none => .error "IndexError: list index out of range"
      | some lastState =>
        let wasClosedBefore := dlt lastState.timestamp intervalStartDate
        if (lastOf b.statesUnique == some (some "closed")) && wasClosedBefore then
          .ok none
        else
          let isBounced := decide (defectBounceCount b > 0)
          let isViolation :=
            isBounced && decide (b.statesUnique.count (some "open") > SLA_LIMIT)
          .ok (some (isBounced, isViolation))
  else .ok none

/-- The defect loop of `find_bounces` for one project, threading the summary
counters and the per-project `bounced` mapping (stored as a list of
`(defect_id, bug)` pairs in insertion order). -/
def processBugs (dates : List String) (bugs : List Bug)
    (summary : ProjSummary) (bouncedList : List (String × Bug)) :
    Except String (ProjSummary × List (String × Bug)) :=
  match bugs with
  | [] => .ok (summary, bouncedList)
  | b :: rest =>
    match processDefect dates b with
    | .error e => .error e
    | .ok none => processBugs dates rest summary bouncedList
    | .ok (some (isBounced, isViolation)) =>
      processBugs dates rest
        ⟨summary.bounced + (if isBounced then 1 else 0),
         summary.total + 1,
         summary.violations ++ (if isViolation then [b] else [])⟩
        (bouncedList ++ (if isBounced then [(b.defectId, b)] else []))

/-- Method `BounceMetrics.find_bounces` (lines 44-100) over the projects of
one pillar: per project, run the defect loop from fresh accumulators; the
result pairs the `bounced` dictionary with the `summary` dictionary, both
keyed by project in iteration order.  An exception thrown while processing
any defect aborts the whole call. -/
def findBounces (dates : List String) (projects : List (String × List Bug)) :
    Except String (List (String × List (String × Bug)) × List (String × ProjSummary)) :=
  match projects with
  | [] => .ok ([], [])
  | (p, bugs) :: rest =>
    match processBugs dates bugs ProjSummary.empty [] with
    | .error e => .error e
    | .ok (s, bl) =>
      match findBounces dates rest with
      | .error e => .error e
      | .ok (bs, ss) => .ok ((p, bl) :: bs, (p, s) :: ss)

/-- The percentage computation of `BounceMetrics.build_report` (lines
187-191): `float(bounced) / float(total) * 100.0`, with the
`ZeroDivisionError` caught and replaced by `0.0`. -/
def percentBounced (bounced total : Nat) : ℚ :=
  if total = 0 then 0 else (bounced : ℚ) / (total : ℚ) * 100

/-- The per-project percentages assembled by `build_report` from the summary
dictionary. -/
def buildReportPercentages (summaries : List (String × ProjSummary)) :
    List (String × ℚ) :=
  summaries.map (fun pr => (pr.1, percentBounced pr.2.bounced pr.2.total))

/-! ## Helper lemmas about the consecutive-duplicate reduction -/

lemma reduceUnique_spec (l : List (Option String)) :
    ∀ prev, List.Chain' (fun a b => a ≠ b) (reduceUnique prev l) ∧
      ∀ x ∈ (reduceUnique prev l).head?, x ≠ prev := by
  induction l with
  | nil =>
    intro prev
    refine ⟨List.chain'_nil, ?_⟩
    intro x hx
    simp [reduceUnique] at hx
  | cons s t ih =>
    intro prev
    by_cases hs : s = prev
    · rw [reduceUnique, if_neg (by simp [hs])]
      rw [hs]
      exact ih prev
    · rw [reduceUnique, if_pos hs]
      constructor
      · rw [List.chain'_cons']
        refine ⟨?_, (ih s).1⟩
        intro y hy
        exact Ne.symm ((ih s).2 y hy)
      · intro x hx
        simp only [List.head?_cons, Option.mem_def, Option.some.injEq] at hx
        rw [hx] at hs
        exact hs

lemma reduceUnique_fixed (l : List (Option String)) :
    ∀ prev, List.Chain' (fun a b => a ≠ b) l → (∀ x ∈ l.head?, x ≠ prev) →
      reduceUnique prev l = l := by
  induction l with
  | nil => intro prev _ _; rfl
  | cons s t ih =>
    intro prev hch hh
    have hs : s ≠ prev := hh s (by simp)
    rw [reduceUnique, if_pos hs]
    congr 1
    apply ih s
    · exact (List.chain'_cons'.mp hch).2
    · intro y hy
      exact Ne.symm ((List.chain'_cons'.mp hch).1 y hy)

/-- C9: for every defect, no two consecutive elements of the reduced
canonical history `states_unique_summary` are equal, and the reduction is
idempotent: collapsing an already-collapsed sequence returns it unchanged. -/
theorem reduced_summary_chain_and_idempotent :
    (∀ l : List (Option String),
      List.Chain' (fun a b => a ≠ b) (statesUniqueSummary l)) ∧
    ∀ l : List (Option String),
      statesUniqueSummary (statesUniqueSummary l) = statesUniqueSummary l := by
  constructor
  · intro l
    exact (reduceUnique_spec l none).1
  · intro l
    exact reduceUnique_fixed (reduceUnique none l) none
      (reduceUnique_spec l none).1 (fun x hx => (reduceUnique_spec l none).2 x hx)

/-- C1 counterexample: with pillar configuration `order = ["new"]`,
`states = {"new": ["brand new"]}` (the initial canonical state is not listed
as one of its own aliases), the seeded creation event normalizes to `None`
and is then dropped by the reduction (whose `previous` starts as the same
`None`), so `states_unique_summary` is empty — its first element neither
exists nor equals `order[0]`, refuting the claim. -/
theorem seed_normalization_can_be_null :
    statesUniqueSummary (normalizeStates [("new", ["brand new"])]
      (parseChangeLog "new" (buildPillarMappings [("new", ["brand new"])])
        ⟨2020, 1, 1, 0, 0, 0, 0⟩ (some []))) = [] := by decide

/-- C1 (amended): the first element of the reduced canonical history is the
reverse-mapping lookup of the pillar's initial state `order[0]`; whenever
that lookup succeeds (in particular whenever the configuration lists
`order[0]` as an alias of some canonical state) the first reduced element is
exactly that non-null value — it equals `order[0]` itself precisely when the
configuration maps `order[0]` to `order[0]`.  When the lookup fails, the
seeded event normalizes to null and is dropped (see the counterexample). -/
theorem reduced_head_eq_reverse_lookup_of_initial
    (sts : StatesCfg) (order0 : String) (createTime : Datetime)
    (chgLog : Option (List ChangeEntry)) (c : String)
    (h : getReverseStatusMappings sts order0 = some c) :
    (statesUniqueSummary (normalizeStates sts
      (parseChangeLog order0 (buildPillarMappings sts) createTime chgLog))).head? =
      some (some c) := by
  cases chgLog with
  | none => simp [parseChangeLog, normalizeStates, statesUniqueSummary, reduceUnique, h]
  | some chgs => simp [parseChangeLog, normalizeStates, statesUniqueSummary, reduceUnique, h]

/-- Witness for C1's amended theorem at a configuration that does list the
initial state as its own alias. -/
theorem reduced_head_eq_reverse_lookup_of_initial_witness :
    getReverseStatusMappings [("new", ["new", "created"])] "new" = some "new" ∧
    (statesUniqueSummary (normalizeStates [("new", ["new", "created"])]
      (parseChangeLog "new" (buildPillarMappings [("new", ["new", "created"])])
        ⟨2020, 1, 1, 0, 0, 0, 0⟩ none))).head? = some (some "new") :=
  ⟨by decide, reduced_head_eq_reverse_lookup_of_initial _ _ _ _ _ (by decide)⟩

/-- C6 counterexample: construction succeeds (returns the populated object,
raising nothing) both for a configuration whose only `order` entry has an
empty alias list and for one whose `order` list is empty — refuting the
claimed fail-fast validation. -/
theorem config_construction_accepts_missing_aliases :
    constructConfigFileType [("p", ⟨some ["new"], [("new", [])]⟩)] "p" =
      .ok ⟨readConfigFile [("p", ⟨some ["new"], [("new", [])]⟩)], some ["new"]⟩ ∧
    constructConfigFileType [("q", ⟨some [], [("new", ["n"])]⟩)] "q" =
      .ok ⟨readConfigFile [("q", ⟨some [], [("new", ["n"])]⟩)], some []⟩ :=
  ⟨rfl, rfl⟩

/-- C6 (amended): construction performs no validation of `order` against the
`states` aliases: for any configuration containing the requested pillar it
succeeds — regardless of empty `order` lists or alias-less `order` entries —
and it fails only with the `KeyError` raised when the pillar is absent from
the file.  Defect processing then proceeds with whatever table was built. -/
theorem config_construction_no_validation :
    (∀ (cfg : List (String × PillarInfo)) (pillar : String) (info : PillarInfo),
      List.lookup pillar cfg = some info →
      constructConfigFileType cfg pillar = .ok ⟨readConfigFile cfg, info.order⟩) ∧
    ∀ (cfg : List (String × PillarInfo)) (pillar : String),
      List.lookup pillar cfg = none →
      constructConfigFileType cfg pillar =
        .error "KeyError: pillar not in configuration" := by
  constructor
  · intro cfg pillar info h
    simp [constructConfigFileType, h]
  · intro cfg pillar h
    simp [constructConfigFileType, h]

/-- Witness for C6's amended theorem at the alias-less configuration. -/
theorem config_construction_no_validation_witness :
    List.lookup "p" [("p", (⟨some ["new"], [("new", [])]⟩ : PillarInfo))] =
      some ⟨some ["new"], [("new", [])]⟩ ∧
    constructConfigFileType [("p", ⟨some ["new"], [("new", [])]⟩)] "p" =
      .ok ⟨readConfigFile [("p", ⟨some ["new"], [("new", [])]⟩)], some ["new"]⟩ :=
  ⟨by decide,
   config_construction_no_validation.1 [("p", ⟨some ["new"], [("new", [])]⟩)] "p"
     ⟨some ["new"], [("new", [])]⟩ (by decide)⟩

/-- C8: the percentage of `build_report` is `bounced / total * 100` for a
non-zero total, and the caught `ZeroDivisionError` yields exactly `0` when
the total is zero — report building never propagates a division error. -/
theorem percent_bounced_division_guard :
    ∀ bounced total : Nat,
      (total = 0 → percentBounced bounced total = 0) ∧
      (total ≠ 0 →
        percentBounced bounced total = (bounced : ℚ) / (total : ℚ) * 100) := by
  intro bounced total
  constructor
  · intro h
    simp [percentBounced, h]
  · intro h
    simp [percentBounced, h]

/-- Witness for C8 at totals zero and two. -/
theorem percent_bounced_division_guard_witness :
    percentBounced 1 0 = 0 ∧ (2 : Nat) ≠ 0 ∧
      percentBounced 1 2 = ((1 : Nat) : ℚ) / ((2 : Nat) : ℚ) * 100 :=
  ⟨(percent_bounced_division_guard 1 0).1 rfl, by decide,
   (percent_bounced_division_guard 1 2).2 (by decide)⟩

/-- C3: a defect whose reduced canonical history is exactly
`["new", "open", "test", "open"]` has bounce count 1 (the final adjacent
pair is counted), and any defect whose reduced history has exactly two
elements has bounce count 0 whatever the elements are. -/
theorem bounce_count_examples :
    (∀ b : Bug,
      b.statesUnique = [some "new", some "open", some "test", some "open"] →
      defectBounceCount b = 1) ∧
    ∀ b : Bug, b.statesUnique.length = 2 → defectBounceCount b = 0 := by
  constructor
  · intro b h
    show bounceCountList b.statesUnique = 1
    rw [h]
    decide
  · intro b h
    show bounceCountList b.statesUnique = 0
    obtain ⟨x, y, hxy⟩ := List.length_eq_two.mp h
    rw [hxy]
    rfl

/-- Witness for C3 at two concrete defects. -/
theorem bounce_count_examples_witness :
    Bug.statesUnique ⟨"D-1", [some "new", some "open", some "test", some "open"], []⟩ =
      [some "new", some "open", some "test", some "open"] ∧
    defectBounceCount
      ⟨"D-1", [some "new", some "open", some "test", some "open"], []⟩ = 1 ∧
    (Bug.statesUnique ⟨"D-2", [some "a", some "b"], []⟩).length = 2 ∧
    defectBounceCount ⟨"D-2", [some "a", some "b"], []⟩ = 0 :=
  ⟨by decide, bounce_count_examples.1 _ (by decide), by decide,
   bounce_count_examples.2 _ (by decide)⟩

/-! ## Helper lemmas about the pairwise bounce scan -/

lemma pairAt_cons_succ (a : Option String) (l : List (Option String)) (i : Nat) :
    pairAt (a :: l) (i + 1) = pairAt l i := rfl

lemma countP_range_pairAt (l : List (Option String)) :
    (List.range (l.length - 1)).countP (fun i => pairAt l i) =
      (l.zip l.tail).countP (fun p => pairIsBounce p.1 p.2) := by
  induction l with
  | nil => rfl
  | cons a t ih =>
    cases t with
    | nil => rfl
    | cons b t' =>
      have hlen : (a :: b :: t').length - 1 = ((b :: t').length - 1) + 1 := by
        simp
      rw [hlen, List.range_succ_eq_map, List.countP_cons, List.countP_map]
      have hshift :
          (List.range ((b :: t').length - 1)).countP
              ((fun i => pairAt (a :: b :: t') i) ∘ Nat.succ) =
            (List.range ((b :: t').length - 1)).countP (fun i => pairAt (b :: t') i) := by
        apply List.countP_congr
        intro i _
        rfl
      rw [hshift, ih]
      show _ = (((a, b) :: (b :: t').zip t').countP fun p => pairIsBounce p.1 p.2)
      rw [List.countP_cons]
      rfl

/-- C2 counterexample: a defect whose reduced canonical history is exactly
`["test", "open", "closed"]` — three reduced states with an adjacent
test-open pair that is not the final pair — has bounce count 0, because the
implementation requires `len - 1 > 2`, i.e. at least four reduced states;
this refutes the claim that such a length-3 sequence yields a positive
count. -/
theorem bounce_count_length_three_is_zero :
    Bug.statesUnique ⟨"D-3", [some "test", some "open", some "closed"], []⟩ =
      [some "test", some "open", some "closed"] ∧
    defectBounceCount ⟨"D-3", [some "test", some "open", some "closed"], []⟩ = 0 :=
  ⟨by decide, by decide⟩

/-- C2 (amended): the scan requires at least four reduced states — any
defect with exactly three reduced states has bounce count 0 — and when it
runs it ranges over `i in [0, len-1)`, i.e. over every adjacent pair
including the final one: for at least four reduced states the bounce count
equals the number of adjacent pairs whose earlier state lowercases to
`test` and later state to `open` (final pair included). -/
theorem bounce_scan_includes_final_pair_and_needs_four_states :
    (∀ b : Bug, b.statesUnique.length = 3 → defectBounceCount b = 0) ∧
    ∀ b : Bug, 4 ≤ b.statesUnique.length →
      defectBounceCount b =
        (b.statesUnique.zip b.statesUnique.tail).countP
          (fun p => pairIsBounce p.1 p.2) := by
  constructor
  · intro b h
    show bounceCountList b.statesUnique = 0
    rw [bounceCountList, h]
    rfl
  · intro b h
    show bounceCountList b.statesUnique = _
    rw [bounceCountList, if_pos (by omega)]
    exact countP_range_pairAt b.statesUnique

/-- Witness for C2's amended theorem at a length-3 and a length-4 defect. -/
theorem bounce_scan_includes_final_pair_and_needs_four_states_witness :
    (Bug.statesUnique ⟨"D-4", [some "x", some "y", some "z"], []⟩).length = 3 ∧
    defectBounceCount ⟨"D-4", [some "x", some "y", some "z"], []⟩ = 0 ∧
    4 ≤ (Bug.statesUnique
      ⟨"D-5", [some "new", some "open", some "test", some "open"], []⟩).length ∧
    defectBounceCount ⟨"D-5", [some "new", some "open", some "test", some "open"], []⟩ =
      ((Bug.statesUnique
          ⟨"D-5", [some "new", some "open", some "test", some "open"], []⟩).zip
        (Bug.statesUnique
          ⟨"D-5", [some "new", some "open", some "test", some "open"], []⟩).tail).countP
        (fun p => pairIsBounce p.1 p.2) :=
  ⟨by decide,
   bounce_scan_includes_final_pair_and_needs_four_states.1 _ (by decide),
   by decide,
   bounce_scan_includes_final_pair_and_needs_four_states.2 _ (by decide)⟩

/-! ## Helper lemmas about the alias tables -/

/-- Preference of the first defined optional value (helper for reasoning
about dict overrides). -/
def dOr (a b : Option String) : Option String :=
  match a with
  | some v => some v
  | none => b

lemma dOr_none_right (a : Option String) : dOr a none = a := by
  cases a <;> rfl

lemma dOr_assoc (a b c : Option String) : dOr (dOr a b) c = dOr a (dOr b c) := by
  cases a <;> rfl

/-- The value the last pair with a given key assigns, starting from `r`. -/
def lastValFrom (r : Option String) (ps : List (String × String)) (x : String) :
    Option String :=
  ps.foldl (fun acc p => if x = p.1 then some p.2 else acc) r

lemma lastValFrom_eq (ps : List (String × String)) :
    ∀ (r : Option String) (x : String),
      lastValFrom r ps x = dOr (lastValFrom none ps x) r := by
  induction ps with
  | nil =>
    intro r x
    cases r <;> rfl
  | cons p t ih =>
    intro r x
    show lastValFrom (if x = p.1 then some p.2 else r) t x = _
    rw [ih]
    conv_rhs =>
      rw [show lastValFrom none (p :: t) x =
        lastValFrom (if x = p.1 then some p.2 else none) t x from rfl]
    rw [ih (if x = p.1 then some p.2 else none)]
    by_cases hx : x = p.1
    · rw [if_pos hx, if_pos hx, dOr_assoc]
      rfl
    · rw [if_neg hx, if_neg hx, dOr_none_right]

lemma foldl_dictInsert_eq (ps : List (String × String)) :
    ∀ (d : Dict) (x : String),
      (ps.foldl (fun acc p => dictInsert acc p.1 p.2) d) x =
        dOr (lastValFrom none ps x) (d x) := by
  induction ps with
  | nil =>
    intro d x
    rfl
  | cons p t ih =>
    intro d x
    show (t.foldl (fun acc q => dictInsert acc q.1 q.2) (dictInsert d p.1 p.2)) x = _
    rw [ih]
    conv_rhs =>
      rw [show lastValFrom none (p :: t) x =
        lastValFrom (if x = p.1 then some p.2 else none) t x from rfl]
    rw [lastValFrom_eq t (if x = p.1 then some p.2 else none)]
    show dOr (lastValFrom none t x) (if x = p.1 then some p.2 else d x) = _
    by_cases hx : x = p.1
    · rw [if_pos hx, if_pos hx, dOr_assoc]
      rfl
    · rw [if_neg hx, if_neg hx, dOr_none_right]

lemma dictOfPairs_apply (ps : List (String × String)) (x : String) :
    dictOfPairs ps x = lastValFrom none ps x := by
  show (ps.foldl (fun acc p => dictInsert acc p.1 p.2) dictEmpty) x = _
  rw [foldl_dictInsert_eq]
  exact dOr_none_right _

lemma lastValFrom_append (as bs : List (String × String)) (x : String) :
    lastValFrom none (as ++ bs) x =
      dOr (lastValFrom none bs x) (lastValFrom none as x) := by
  show List.foldl _ none (as ++ bs) = _
  rw [List.foldl_append]
  exact lastValFrom_eq bs (lastValFrom none as x) x

lemma buildPillarMappings_from (sts : StatesCfg) :
    ∀ (d : Dict) (x : String),
      (sts.foldl (fun acc p => dictUpdate acc (dictOfPairs (aliasPairs p))) d) x =
        dOr (lastValFrom none ((sts.map aliasPairs).flatten) x) (d x) := by
  induction sts with
  | nil =>
    intro d x
    rfl
  | cons p t ih =>
    intro d x
    show (t.foldl (fun acc q => dictUpdate acc (dictOfPairs (aliasPairs q)))
        (dictUpdate d (dictOfPairs (aliasPairs p)))) x = _
    rw [ih]
    have hupd : dictUpdate d (dictOfPairs (aliasPairs p)) x =
        dOr (lastValFrom none (aliasPairs p) x) (d x) := by
      show dOr (dictOfPairs (aliasPairs p) x) (d x) = _
      rw [dictOfPairs_apply]
    rw [hupd]
    have hflat : ((p :: t).map aliasPairs).flatten =
        aliasPairs p ++ (t.map aliasPairs).flatten := rfl
    rw [hflat, lastValFrom_append, dOr_assoc]

lemma tables_agree (sts : StatesCfg) (x : String) :
    buildPillarMappings sts x = getReverseStatusMappings sts x := by
  show (sts.foldl (fun acc p => dictUpdate acc (dictOfPairs (aliasPairs p)))
      dictEmpty) x = _
  rw [buildPillarMappings_from, getReverseStatusMappings, dictOfPairs_apply]
  exact dOr_none_right _

lemma scanChangeLog_standard (mp : Dict) (chgs : List ChangeEntry) :
    ∀ ev ∈ scanChangeLog mp chgs, mp ev.actual = some ev.standard := by
  intro ev hev
  simp only [scanChangeLog, List.mem_flatten, List.mem_map] at hev
  obtain ⟨l, ⟨chg, hchg, hl⟩, hev⟩ := hev
  rw [← hl] at hev
  rw [List.mem_filterMap] at hev
  obtain ⟨item, hitem, hf⟩ := hev
  by_cases hfield : toLowerStr item.field = "status"
  · rw [if_pos hfield] at hf
    cases hmp : mp (toLowerStr item.chgTo) with
    | none => rw [hmp] at hf; cases hf
    | some std =>
      rw [hmp] at hf
      cases hf
      exact hmp
  · rw [if_neg hfield] at hf
    cases hf

/-- C10: the alias-to-canonical table built once at configuration load
(`read_config_file`) is extensionally equal to the table rebuilt on demand
by `get_reverse_status_mappings` — including when one alias is listed under
several canonical states, where both keep the last binding in file order —
and consequently the `standard` value stored with every state event appended
during change-log parsing is exactly the value the separate normalization
pass produces for that event's raw label. -/
theorem alias_tables_agree_and_parse_matches_normalization :
    (∀ (sts : StatesCfg) (x : String),
      buildPillarMappings sts x = getReverseStatusMappings sts x) ∧
    ∀ (sts : StatesCfg) (chgs : List ChangeEntry) (ev : State),
      ev ∈ scanChangeLog (buildPillarMappings sts) chgs →
      getReverseStatusMappings sts ev.actual = some ev.standard := by
  refine ⟨tables_agree, ?_⟩
  intro sts chgs ev hev
  rw [← tables_agree]
  exact scanChangeLog_standard _ chgs ev hev

/-- Witness for C10 at a configuration listing the same alias under two
canonical states: both tables resolve it to the later state. -/
theorem alias_tables_agree_and_parse_matches_normalization_witness :
    ((⟨"reopened", "test", ⟨2020, 1, 1, 0, 0, 0, 0⟩⟩ : State) ∈
      scanChangeLog (buildPillarMappings [("open", ["reopened"]), ("test", ["reopened"])])
        [⟨⟨2020, 1, 1, 0, 0, 0, 0⟩, [⟨"Status", "Reopened"⟩]⟩]) ∧
    getReverseStatusMappings [("open", ["reopened"]), ("test", ["reopened"])]
      "reopened" = some "test" :=
  ⟨by decide,
   alias_tables_agree_and_parse_matches_normalization.2
     [("open", ["reopened"]), ("test", ["reopened"])]
     [⟨⟨2020, 1, 1, 0, 0, 0, 0⟩, [⟨"Status", "Reopened"⟩]⟩]
     ⟨"reopened", "test", ⟨2020, 1, 1, 0, 0, 0, 0⟩⟩ (by decide)⟩

/-! ## Helper lemmas about the find_bounces loop -/

lemma lastOf_of_ne_nil {α : Type} (l : List α) :
    l ≠ [] → ∃ a, lastOf l = some a := by
  induction l with
  | nil => intro h; exact absurd rfl h
  | cons a t ih =>
    intro _
    cases t with
    | nil => exact ⟨a, rfl⟩
    | cons b t' =>
      obtain ⟨x, hx⟩ := ih (by simp)
      exact ⟨x, hx⟩

/-- The timestamp `defect.states[-1].timestamp` (with an arbitrary default
for the empty list, on which the code raises `IndexError` instead). -/
def lastTimestampD (b : Bug) : Datetime :=
  match lastOf b.states with
  | some st => st.timestamp
  | none => ⟨1, 1, 1, 0, 0, 0, 0⟩

/-- A defect counted into the total: passes the closed filter and its most
recent raw state event is not strictly before the interval start. -/
def countedB (start : Datetime) (b : Bug) : Bool :=
  isClosedEligible b && !(dlt (lastTimestampD b) start)

/-- A defect counted as bounced: counted, with positive bounce count. -/
def bouncedB (start : Datetime) (b : Bug) : Bool :=
  countedB start b && decide (defectBounceCount b > 0)

/-- A defect appended to the violations list: bounced, with strictly more
`open` occurrences in the reduced history than the SLA limit. -/
def violB (start : Datetime) (b : Bug) : Bool :=
  bouncedB start b && decide (b.statesUnique.count (some "open") > SLA_LIMIT)

lemma processDefect_of_parse_ok {dates : List String} {start : Datetime}
    (hp : parseIntervalStart dates = .ok start) (b : Bug)
    (hb : isClosedEligible b = true → b.states ≠ []) :
    processDefect dates b = .ok (if countedB start b then
      some (decide (defectBounceCount b > 0),
        decide (defectBounceCount b > 0) &&
          decide (b.statesUnique.count (some "open") > SLA_LIMIT))
      else none) := by
  cases he : isClosedEligible b with
  | false => simp [processDefect, he, countedB]
  | true =>
    obtain ⟨st, hst⟩ := lastOf_of_ne_nil b.states (hb he)
    have hts : lastTimestampD b = st.timestamp := by
      rw [lastTimestampD, hst]
    have he' : (b.statesUnique.contains (some "closed") &&
        (lastOf b.statesUnique == some (some "closed"))) = true := he
    have hcl : (lastOf b.statesUnique == some (some "closed")) = true := by
      rw [Bool.and_eq_true] at he'
      exact he'.2
    simp only [processDefect, he, if_true, hp, hst, hcl, Bool.true_and]
    cases hd : dlt st.timestamp start with
    | true => simp [countedB, he, hts, hd]
    | false => simp [countedB, he, hts, hd]

lemma processBugs_of_parse_ok {dates : List String} {start : Datetime}
    (hp : parseIntervalStart dates = .ok start) :
    ∀ (bugs : List Bug),
      (∀ b ∈ bugs, isClosedEligible b = true → b.states ≠ []) →
      ∀ (s : ProjSummary) (bl : List (String × Bug)),
        processBugs dates bugs s bl = .ok
          (⟨s.bounced + bugs.countP (bouncedB start),
            s.total + bugs.countP (countedB start),
            s.violations ++ bugs.filter (violB start)⟩,
           bl ++ (bugs.filter (bouncedB start)).map (fun b => (b.defectId, b))) := by
  intro bugs
  induction bugs with
  | nil =>
    intro _ s bl
    simp [processBugs]
  | cons b rest ih =>
    intro hb s bl
    have hbb : isClosedEligible b = true → b.states ≠ [] := hb b (by simp)
    have hrest := fun x hx => hb x (List.mem_cons_of_mem b hx)
    rw [processBugs, processDefect_of_parse_ok hp b hbb]
    cases hc : countedB start b with
    | false =>
      have hb2 : bouncedB start b = false := by simp [bouncedB, hc]
      have hv2 : violB start b = false := by simp [violB, hb2]
      simp only [hc, Bool.false_eq_true, if_false]
      rw [ih hrest s bl]
      simp [List.countP_cons, List.filter_cons, hc, hb2, hv2]
    | true =>
      have hb2 : bouncedB start b = decide (defectBounceCount b > 0) := by
        simp [bouncedB, hc]
      have hv2 : violB start b = (decide (defectBounceCount b > 0) &&
          decide (b.statesUnique.count (some "open") > SLA_LIMIT)) := by
        simp [violB, bouncedB, hc, Bool.and_assoc]
      simp only [hc, if_true]
      rw [ih hrest]
      cases hbc : decide (defectBounceCount b > 0) with
      | false =>
        simp only [hbc, Bool.false_and, if_false, Bool.false_eq_true]
        simp [List.countP_cons, List.filter_cons, hb2, hv2, hbc, hc]
        omega
      | true =>
        cases hvc : decide (b.statesUnique.count (some "open") > SLA_LIMIT) with
        | false =>
          simp only [hbc, hvc, Bool.true_and, Bool.false_eq_true, if_false, if_true]
          simp [List.countP_cons, List.filter_cons, hb2, hv2, hbc, hvc, hc]
          omega
        | true =>
          simp only [hbc, hvc, Bool.true_and, if_true]
          simp [List.countP_cons, List.filter_cons, hb2, hv2, hbc, hvc, hc]
          omega

lemma processDefect_skip {dates : List String} {b : Bug}
    (h : isClosedEligible b = false) : processDefect dates b = .ok none := by
  simp [processDefect, h]

lemma processBugs_all_skip {dates : List String} :
    ∀ (bugs : List Bug), (∀ b ∈ bugs, isClosedEligible b = false) →
      ∀ s bl, processBugs dates bugs s bl = .ok (s, bl) := by
  intro bugs
  induction bugs with
  | nil => intro _ s bl; rfl
  | cons b rest ih =>
    intro h s bl
    rw [processBugs, processDefect_skip (h b (by simp))]
    exact ih (fun x hx => h x (List.mem_cons_of_mem b hx)) s bl

lemma processBugs_parse_error {dates : List String} {e : String}
    (hp : parseIntervalStart dates = .error e) :
    ∀ (bugs : List Bug), (∃ b ∈ bugs, isClosedEligible b = true) →
      ∀ s bl, processBugs dates bugs s bl = .error e := by
  intro bugs
  induction bugs with
  | nil =>
    intro h
    simp at h
  | cons b rest ih =>
    intro h s bl
    cases he : isClosedEligible b with
    | true =>
      rw [processBugs]
      have hpd : processDefect dates b = .error e := by
        simp [processDefect, he, hp]
      rw [hpd]
    | false =>
      rw [processBugs, processDefect_skip he]
      refine ih ?_ s bl
      obtain ⟨x, hx, hex⟩ := h
      rcases List.mem_cons.mp hx with h1 | h2
      · rw [h1] at hex
        simp [hex] at he
      · exact ⟨x, h2, hex⟩

/-- C4: characterization of the eligibility filter of `find_bounces` — a
defect contributes to the project's total exactly when `closed` occurs in
its reduced canonical history with the last element equal to `closed`
(`isClosedEligible`) and its most recent raw state-event timestamp is not
strictly earlier than the interval start (`countedB`); defects failing
either test contribute to none of the total, the bounced count, the bounced
map or the violations list. -/
theorem eligibility_filter_characterization
    (dates : List String) (start : Datetime) (p : String) (bugs : List Bug)
    (hp : parseIntervalStart dates = .ok start)
    (hb : ∀ b ∈ bugs, isClosedEligible b = true → b.states ≠ []) :
    findBounces dates [(p, bugs)] = .ok
      ([(p, (bugs.filter (bouncedB start)).map (fun b => (b.defectId, b)))],
       [(p, ⟨bugs.countP (bouncedB start), bugs.countP (countedB start),
             bugs.filter (violB start)⟩)]) := by
  rw [findBounces, processBugs_of_parse_ok hp bugs hb ProjSummary.empty []]
  simp [findBounces, ProjSummary.empty]

/-- Witness for C4: one currently-closed defect updated after the interval
start (counted and bounced) and one still-open defect (skipped). -/
theorem eligibility_filter_characterization_witness :
    findBounces ["2020/1/1", "2020/2/1"]
      [("proj",
        [⟨"D-10", [some "new", some "open", some "test", some "open", some "closed"],
           [⟨"done", "closed", ⟨2020, 3, 1, 0, 0, 0, 0⟩⟩]⟩,
         ⟨"D-11", [some "new", some "open"], []⟩])] = .ok
      ([("proj",
        (([⟨"D-10", [some "new", some "open", some "test", some "open", some "closed"],
             [⟨"done", "closed", ⟨2020, 3, 1, 0, 0, 0, 0⟩⟩]⟩,
           ⟨"D-11", [some "new", some "open"], []⟩] : List Bug).filter
            (bouncedB ⟨2020, 1, 1, 0, 0, 0, 0⟩)).map (fun b => (b.defectId, b)))],
       [("proj",
        ⟨([⟨"D-10", [some "new", some "open", some "test", some "open", some "closed"],
             [⟨"done", "closed", ⟨2020, 3, 1, 0, 0, 0, 0⟩⟩]⟩,
           ⟨"D-11", [some "new", some "open"], []⟩] : List Bug).countP
            (bouncedB ⟨2020, 1, 1, 0, 0, 0, 0⟩),
         ([⟨"D-10", [some "new", some "open", some "test", some "open", some "closed"],
             [⟨"done", "closed", ⟨2020, 3, 1, 0, 0, 0, 0⟩⟩]⟩,
           ⟨"D-11", [some "new", some "open"], []⟩] : List Bug).countP
            (countedB ⟨2020, 1, 1, 0, 0, 0, 0⟩),
         ([⟨"D-10", [some "new", some "open", some "test", some "open", some "closed"],
             [⟨"done", "closed", ⟨2020, 3, 1, 0, 0, 0, 0⟩⟩]⟩,
           ⟨"D-11", [some "new", some "open"], []⟩] : List Bug).filter
            (violB ⟨2020, 1, 1, 0, 0, 0, 0⟩)⟩)]) :=
  eligibility_filter_characterization ["2020/1/1", "2020/2/1"]
    ⟨2020, 1, 1, 0, 0, 0, 0⟩ "proj" _ (by rfl) (by decide)

/-- C5: among counted defects, exactly those with positive bounce count and
strictly more than `SLA_LIMIT = 2` occurrences of `open` in the reduced
canonical history are appended to the violations list; a count of exactly 3
of a bounced defect is a violation, a count of exactly 2 is not, and a
defect with bounce count 0 is never a violation. -/
theorem sla_violation_characterization
    (dates : List String) (start : Datetime) (bugs : List Bug)
    (hp : parseIntervalStart dates = .ok start)
    (hb : ∀ b ∈ bugs, isClosedEligible b = true → b.states ≠ []) :
    processBugs dates bugs ProjSummary.empty [] = .ok
      (⟨bugs.countP (bouncedB start), bugs.countP (countedB start),
        bugs.filter (fun b => bouncedB start b &&
          decide (b.statesUnique.count (some "open") > SLA_LIMIT))⟩,
       (bugs.filter (bouncedB start)).map (fun b => (b.defectId, b))) ∧
    (∀ b : Bug, bouncedB start b = true →
      b.statesUnique.count (some "open") = 3 → violB start b = true) ∧
    (∀ b : Bug, b.statesUnique.count (some "open") = 2 → violB start b = false) ∧
    (∀ b : Bug, defectBounceCount b = 0 → violB start b = false) := by
  refine ⟨?_, ?_, ?_, ?_⟩
  · rw [processBugs_of_parse_ok hp bugs hb]
    simp [ProjSummary.empty]
    rfl
  · intro b h3 hcount
    simp [violB, h3, hcount, SLA_LIMIT]
  · intro b hcount
    simp [violB, hcount, SLA_LIMIT]
  · intro b h0
    simp [violB, bouncedB, h0]

/-- Witness for C5: a closed, bounced defect with three `open` occurrences. -/
theorem sla_violation_characterization_witness :
    processBugs ["2020/1/1", "2020/2/1"]
      [⟨"D-14",
        [some "new", some "open", some "test", some "open", some "test",
         some "open", some "closed"],
        [⟨"done", "closed", ⟨2020, 3, 1, 0, 0, 0, 0⟩⟩]⟩]
      ProjSummary.empty [] = .ok
      (⟨([⟨"D-14",
           [some "new", some "open", some "test", some "open", some "test",
            some "open", some "closed"],
           [⟨"done", "closed", ⟨2020, 3, 1, 0, 0, 0, 0⟩⟩]⟩] : List Bug).countP
          (bouncedB ⟨2020, 1, 1, 0, 0, 0, 0⟩),
        ([⟨"D-14",
           [some "new", some "open", some "test", some "open", some "test",
            some "open", some "closed"],
           [⟨"done", "closed", ⟨2020, 3, 1, 0, 0, 0, 0⟩⟩]⟩] : List Bug).countP
          (countedB ⟨2020, 1, 1, 0, 0, 0, 0⟩),
        ([⟨"D-14",
           [some "new", some "open", some "test", some "open", some "test",
            some "open", some "closed"],
           [⟨"done", "closed", ⟨2020, 3, 1, 0, 0, 0, 0⟩⟩]⟩] : List Bug).filter
          (fun b => bouncedB ⟨2020, 1, 1, 0, 0, 0, 0⟩ b &&
            decide (b.statesUnique.count (some "open") > SLA_LIMIT))⟩,
       (([⟨"D-14",
           [some "new", some "open", some "test", some "open", some "test",
            some "open", some "closed"],
           [⟨"done", "closed", ⟨2020, 3, 1, 0, 0, 0, 0⟩⟩]⟩] : List Bug).filter
          (bouncedB ⟨2020, 1, 1, 0, 0, 0, 0⟩)).map (fun b => (b.defectId, b))) ∧
    violB ⟨2020, 1, 1, 0, 0, 0, 0⟩
      ⟨"D-14",
       [some "new", some "open", some "test", some "open", some "test",
        some "open", some "closed"],
       [⟨"done", "closed", ⟨2020, 3, 1, 0, 0, 0, 0⟩⟩]⟩ = true :=
  ⟨(sla_violation_characterization ["2020/1/1", "2020/2/1"]
      ⟨2020, 1, 1, 0, 0, 0, 0⟩ _ (by rfl) (by decide)).1,
   (sla_violation_characterization ["2020/1/1", "2020/2/1"]
      ⟨2020, 1, 1, 0, 0, 0, 0⟩ [] (by rfl) (by simp)).2.1
     ⟨"D-14",
      [some "new", some "open", some "test", some "open", some "test",
       some "open", some "closed"],
      [⟨"done", "closed", ⟨2020, 3, 1, 0, 0, 0, 0⟩⟩]⟩ (by decide) (by decide)⟩

/-- C7 counterexample: with a malformed interval start date but an empty
defect collection, `find_bounces` completes and returns an (empty) summary —
no invalid-interval failure is surfaced, refuting the claim that the failure
occurs for every input collection. -/
theorem find_bounces_ok_on_empty_with_bad_date :
    findBounces ["garbage", "2020/2/1"] [("proj", [])] =
      .ok ([("proj", [])], [("proj", ProjSummary.empty)]) := rfl

/-- C7 (amended): a malformed or missing interval start date surfaces as an
error only when some defect passes the closed-state eligibility test: when
no defect does (in particular for empty collections), `find_bounces`
completes normally with zeroed summaries, because the date is parsed inside
the defect loop after the closed filter; when some defect in a project does
pass, the parse error aborts the whole call. -/
theorem invalid_interval_only_surfaces_for_eligible_defects
    (dates : List String) (e : String)
    (hp : parseIntervalStart dates = .error e) :
    (∀ projects : List (String × List Bug),
      (∀ pr ∈ projects, ∀ b ∈ pr.2, isClosedEligible b = false) →
      findBounces dates projects = .ok
        (projects.map (fun pr => (pr.1, ([] : List (String × Bug)))),
         projects.map (fun pr => (pr.1, ProjSummary.empty)))) ∧
    ∀ (p : String) (bugs : List Bug),
      (∃ b ∈ bugs, isClosedEligible b = true) →
      findBounces dates [(p, bugs)] = .error e := by
  constructor
  · intro projects
    induction projects with
    | nil => intro _; rfl
    | cons pr rest ih =>
      intro h
      obtain ⟨p, bugs⟩ := pr
      rw [findBounces,
        processBugs_all_skip bugs (fun b hbm => h (p, bugs) (by simp) b hbm)
          ProjSummary.empty [],
        ih (fun q hq b hbm => h q (List.mem_cons_of_mem _ hq) b hbm)]
      rfl
  · intro p bugs h
    rw [findBounces, processBugs_parse_error hp bugs h ProjSummary.empty []]

/-- Witness for C7's amended theorem: with the same malformed date, a
collection with only a non-closed defect yields a summary, while a
collection containing a closed defect propagates the parse error. -/
theorem invalid_interval_only_surfaces_for_eligible_defects_witness :
    findBounces ["garbage", "2020/2/1"]
        [("proj", ([⟨"D-12", [some "new"], []⟩] : List Bug))] =
      .ok ([("proj", ([⟨"D-12", [some "new"], []⟩] : List Bug))].map
            (fun pr => (pr.1, ([] : List (String × Bug)))),
           [("proj", ([⟨"D-12", [some "new"], []⟩] : List Bug))].map
            (fun pr => (pr.1, ProjSummary.empty))) ∧
    findBounces ["garbage", "2020/2/1"]
        [("proj", ([⟨"D-13", [some "closed"], []⟩] : List Bug))] =
      .error "ValueError: invalid literal for int" :=
  ⟨(invalid_interval_only_surfaces_for_eligible_defects ["garbage", "2020/2/1"]
      "ValueError: invalid literal for int" (by rfl)).1
     [("proj", ([⟨"D-12", [some "new"], []⟩] : List Bug))] (by decide),
   (invalid_interval_only_surfaces_for_eligible_defects ["garbage", "2020/2/1"]
      "ValueError: invalid literal for int" (by rfl)).2
     "proj" ([⟨"D-13", [some "closed"], []⟩] : List Bug) (by decide)⟩

end DefectMetrics
